import Mathlib

/-!
Verification of the AIDeployer build-orchestration pipeline.

Shallow embedding of the core components:
* `app/services/github/github_service.py` — repository sync (`push_files`, `get_files`)
* `app/services/llm/manager.py` — generation fallback manager (`generate_with_fallback`)
* `app/services/llm/providers.py` — provider attachment shaping
* `app/services/deployment.py` — evaluator notification (`notify_evaluation`)
* `app/services/code_generator.py` — post-processing of parsed generation results
* `app/api/endpoints.py` — request orchestration (`process_build_request`)

Python dicts are modelled as insertion-ordered association lists with
update-in-place / append-at-end assignment semantics.  External library
calls (GitHub API, HTTP transport, base64/utf-8 codecs) are modelled as
explicit outcome parameters.
-/

namespace AIDeployer

/-- A Python `Dict[str, str]` (path → content), insertion ordered. -/
abbrev FileSet := List (String × String)

/-- `d[k]` lookup: value at the first occurrence of key `k`. -/
def dictLookup : FileSet → String → Option String
  | [], _ => none
  | (k', v) :: rest, k => if k' = k then some v else dictLookup rest k

/-- `k in d` membership test. -/
def dictContains (d : FileSet) (k : String) : Bool :=
  (dictLookup d k).isSome

/-- `d[k] = v` assignment: update in place if present, append otherwise. -/
def dictInsert : FileSet → String → String → FileSet
  | [], k, v => [(k, v)]
  | (k', v') :: rest, k, v =>
    if k' = k then (k, v) :: rest else (k', v') :: dictInsert rest k v

/-! ## Repository sync engine (`GitHubService.push_files`)

The GitHub object store is modelled explicitly: commits are identified by
their index in `GitState.commits`; the default branch is a mutable pointer
(`branchTip`).  A reader of the default branch observes the tree of the
commit the branch points to. -/

/-- A git commit object: parent list and the full tree snapshot it carries. -/
structure Commit where
  parents : List Nat
  tree : FileSet
deriving DecidableEq, Repr

/-- The externally visible repository state. -/
structure GitState where
  commits : List Commit
  branchTip : Option Nat
deriving DecidableEq, Repr

/-- The tree of commit `i` (empty if `i` is not a commit id). -/
def treeAt (s : GitState) (i : Nat) : FileSet :=
  ((s.commits[i]?).map Commit.tree).getD []

/-- What a reader of the default branch observes. -/
def observedTree (s : GitState) : FileSet :=
  match s.branchTip with
  | some i => treeAt s i
  | none => []

/-- `push_files` tree-element construction: one blob per file, skipping the
reserved `"round"` pseudo-key (`if filepath == "round": continue`). -/
def treeElements (files : FileSet) : FileSet :=
  files.filter (fun p => p.1 ≠ "round")

/-- `commit_message = f"Deploy application - Round {files.get('round', 1)}"`. -/
def commitMessage (files : FileSet) : String :=
  "Deploy application - Round " ++ (dictLookup files "round").getD "1"

/-- `repo.create_git_tree(tree_elements, base_tree)`: the new tree is the base
tree with every listed entry replaced or added; unlisted entries are
inherited unchanged. -/
def createGitTree (elements base : FileSet) : FileSet :=
  elements.foldl (fun t e => dictInsert t e.1 e.2) base

/-- One primitive repository-mutating API call issued during a publish. -/
inductive PubStep where
  | mkTree (t : FileSet)
  | mkCommit (c : Commit)
  | setRef (i : Nat)
deriving DecidableEq, Repr

/-- Effect of one API call on the repository state.  Creating a tree object
allocates an unreferenced object and does not change what any reader of the
branch sees; creating a commit appends a new object; `ref.edit(..., force=True)`
moves the branch pointer. -/
def applyStep (s : GitState) : PubStep → GitState
  | .mkTree _ => s
  | .mkCommit c => { s with commits := s.commits ++ [c] }
  | .setRef i => { s with branchTip := some i }

def applySteps (s : GitState) (steps : List PubStep) : GitState :=
  steps.foldl applyStep s

/-- The sequence of mutating API calls `push_files` issues on the main
(non-bootstrap) path, given tip commit `t`: create tree, create commit with
single parent `t`, then force-move the ref. -/
def mainPublishSteps (s : GitState) (files : FileSet) (t : Nat) : List PubStep :=
  let base := treeAt s t
  let newTree := createGitTree (treeElements files) base
  [PubStep.mkTree newTree,
   PubStep.mkCommit ⟨[t], newTree⟩,
   PubStep.setRef s.commits.length]

/-- Errors surfaced by the GitHub API (`GithubException`). -/
inductive GhError where
  | apiError (msg : String)
deriving DecidableEq, Repr

/-- Outcomes of the external API calls that `push_files` wraps in `try`:
whether `get_git_ref` on the default branch succeeds, and whether the
bootstrap `create_file(".init", ...)` succeeds. -/
structure GitEnv where
  refLookupOk : Bool
  createFileOk : Bool
deriving DecidableEq, Repr

/-- Contents-API `repo.create_file`: commits a single file on top of the
current branch tip (creating the branch if absent) and moves the tip. -/
def contentsApiCreateFile (s : GitState) (path content : String) : GitState :=
  let parents := match s.branchTip with | some t => [t] | none => []
  { commits := s.commits ++ [⟨parents, dictInsert (observedTree s) path content⟩],
    branchTip := some s.commits.length }

/-- `GitHubService.push_files`.  Main path when the branch ref resolves;
otherwise the bootstrap path: create the `.init` placeholder via the
Contents API (re-raising its failure unchanged), re-resolve the tip, then
publish as on the main path. -/
def pushFiles (s : GitState) (env : GitEnv) (files : FileSet) :
    Except GhError (Nat × GitState) :=
  match s.branchTip, env.refLookupOk with
  | some t, true =>
    Except.ok (s.commits.length, applySteps s (mainPublishSteps s files t))
  | some _, false =>
    if env.createFileOk then
      let s1 := contentsApiCreateFile s ".init" "Initialized by application"
      Except.ok (s1.commits.length, applySteps s1 (mainPublishSteps s1 files s.commits.length))
    else
      Except.error (.apiError "Failed to initialize repository with create_file")
  | none, _ =>
    if env.createFileOk then
      let s1 := contentsApiCreateFile s ".init" "Initialized by application"
      Except.ok (s1.commits.length, applySteps s1 (mainPublishSteps s1 files s.commits.length))
    else
      Except.error (.apiError "Failed to initialize repository with create_file")

/-! ## Repository read path (`GitHubService.get_files`)

`get_files` walks the repository contents breadth-first (`contents.pop(0)`
then `contents.extend(...)` for directories), decoding each file.  The whole
walk is wrapped in `try/except`: any listing or decoding failure is logged
and the files collected so far are returned. -/

/-- A repository content entry as returned by `repo.get_contents`.  For a
directory, `fetchOk` records whether the nested `get_contents(path)` call
succeeds, and `children` what it returns on success. -/
inductive RepoEntry where
  | file (path encoding raw : String)
  | dir (path : String) (fetchOk : Bool) (children : List RepoEntry)
deriving Repr

/-- Number of entries in a worklist, directories counted with their
contents; the traversal measure of the `get_files` loop. -/
def repoEntryListSize : List RepoEntry → Nat
  | [] => 0
  | .file _ _ _ :: es => 1 + repoEntryListSize es
  | .dir _ _ cs :: es => 1 + repoEntryListSize cs + repoEntryListSize es

/-- The `while contents:` loop of `get_files`.  `dec` is the
`base64.b64decode(...).decode('utf-8', errors='replace')` pipeline, which may
raise.  Any failure returns the accumulator collected so far (the exception
propagates to the surrounding `except`, which swallows it). -/
def getFilesGo (dec : String → Except String String) :
    List RepoEntry → FileSet → FileSet
  | [], acc => acc
  | RepoEntry.file p enc raw :: rest, acc =>
    if enc = "base64" then
      match dec raw with
      | .ok c => getFilesGo dec rest (dictInsert acc p c)
      | .error _ => acc
    else
      getFilesGo dec rest (dictInsert acc p raw)
  | RepoEntry.dir _ fetchOk children :: rest, acc =>
    if fetchOk then getFilesGo dec (rest ++ children) acc
    else acc
termination_by es _ => repoEntryListSize es
decreasing_by
  all_goals
    have happ : ∀ l1 l2 : List RepoEntry,
        repoEntryListSize (l1 ++ l2) = repoEntryListSize l1 + repoEntryListSize l2 := by
      intro l1 l2
      induction l1 with
      | nil => simp [repoEntryListSize]
      | cons e es ih => cases e <;> simp [repoEntryListSize, ih] <;> omega
    simp only [repoEntryListSize, happ]
    omega

/-- `GitHubService.get_files`: list the repository root and walk it; if even
the root listing fails, the empty dict accumulated so far is returned. -/
def getFiles (dec : String → Except String String) (rootOk : Bool)
    (rootEntries : List RepoEntry) : FileSet :=
  if rootOk then getFilesGo dec rootEntries [] else []

/-! ## Generation fallback manager (`LLMManager.generate_with_fallback`) -/

/-- `LLMResponse` (dataclass in `app/services/llm/base.py`), without the
optional usage counters. -/
structure LLMResponse where
  content : String
  model : String
  provider : String
deriving DecidableEq, Repr

/-- Provider configuration visible to the manager: `configured p` is
`p in self.providers` (an API key was present at startup) and `available p`
is `provider.is_available()`. -/
structure ProviderEnv where
  configured : String → Bool
  available : String → Bool

/-- The static `self.model_mapping` of `LLMManager.__init__`. -/
def modelMapping (model : String) : List String :=
  if model = "anthropic/claude-opus-4.1" then ["openrouter"]
  else if model = "claude-opus-4-1" then ["anthropic"]
  else if model = "gpt-5" then ["openrouter", "openai"]
  else if model = "google/gemini-2.5-pro" then ["openrouter"]
  else if model = "gemini-2.5-pro" then ["gemini"]
  else []

/-- The default `settings.model_preferences` of `app/config.py`. -/
def modelPreferences : List String :=
  ["anthropic/claude-opus-4.1", "claude-opus-4-1", "gpt-5",
   "google/gemini-2.5-pro", "gemini-2.5-pro"]

/-- The message of the terminal exception raised when the double loop
completes with no success. -/
def allProvidersFailedMsg : String :=
  "All LLM providers failed. Please check your API keys and configurations."

/-- Inner loop of the cascade: `for provider_name in available_providers`,
skipping unconfigured (`not in self.providers`) and unavailable providers,
calling `provider.generate` otherwise.  Returns the list of candidates
actually called and the first success, if any. -/
def tryProviders (env : ProviderEnv)
    (call : String × String → Except String LLMResponse) (model : String) :
    List String → List (String × String) × Option LLMResponse
  | [] => ([], none)
  | p :: rest =>
    if env.configured p = false then tryProviders env call model rest
    else if env.available p = false then tryProviders env call model rest
    else
      match call (model, p) with
      | .ok r => ([(model, p)], some r)
      | .error _ =>
        let t := tryProviders env call model rest
        ((model, p) :: t.1, t.2)

/-- Outer loop of the cascade: `for model in settings.model_preferences`. -/
def tryModels (env : ProviderEnv)
    (call : String × String → Except String LLMResponse)
    (mapping : String → List String) :
    List String → List (String × String) × Option LLMResponse
  | [] => ([], none)
  | m :: rest =>
    let t := tryProviders env call m (mapping m)
    match t.2 with
    | some r => (t.1, some r)
    | none =>
      let t2 := tryModels env call mapping rest
      (t.1 ++ t2.1, t2.2)

/-- One full cascade pass (the body of `generate_with_fallback`): the double
loop, raising the terminal exhaustion error if no candidate succeeded. -/
def generateOnce (prefs : List String) (mapping : String → List String)
    (env : ProviderEnv) (call : String × String → Except String LLMResponse) :
    List (String × String) × Except String LLMResponse :=
  let t := tryModels env call mapping prefs
  match t.2 with
  | some r => (t.1, Except.ok r)
  | none => (t.1, Except.error allProvidersFailedMsg)

/-- The flattened candidate list the cascade walks: models in preference
order, each model's providers in declared order, restricted to providers
that are configured and available. -/
def availableCandidates (prefs : List String) (mapping : String → List String)
    (env : ProviderEnv) : List (String × String) :=
  prefs.flatMap (fun m =>
    ((mapping m).filter (fun p => env.configured p && env.available p)).map
      (fun p => (m, p)))

/-- Linear walk over an explicit candidate list, used to relate the double
loop to `availableCandidates`. -/
def runCandidatesOpt (call : String × String → Except String LLMResponse) :
    List (String × String) → List (String × String) × Option LLMResponse
  | [] => ([], none)
  | c :: rest =>
    match call c with
    | .ok r => ([c], some r)
    | .error _ =>
      let t := runCandidatesOpt call rest
      (c :: t.1, t.2)

/-- `tenacity.wait_exponential(multiplier, min, max)` evaluated after the
`n`-th attempt: `max(max(0, min), min(multiplier * 2**n, max))`. -/
def waitExponential (multiplier lo hi n : Nat) : Nat :=
  max (max 0 lo) (min (multiplier * 2 ^ n) hi)

/-- The `@retry(stop=stop_after_attempt(3), wait=wait_exponential(multiplier=1,
min=2, max=10))` decorator around `generate_with_fallback`: run the cascade;
on success stop; on failure sleep and rerun, at most 3 attempts in total, the
last failure propagating.  `callAt n` is the provider-call oracle during
attempt `n`.  Returns (candidates called across all attempts, sleeps
performed, final outcome). -/
def runAttempts (prefs : List String) (mapping : String → List String)
    (env : ProviderEnv)
    (callAt : Nat → String × String → Except String LLMResponse) :
    Nat → Nat → List (String × String) × List Nat × Except String LLMResponse
  | attempt, 0 =>
    let t := generateOnce prefs mapping env (callAt attempt)
    match t.2 with
    | .ok r => (t.1, [], .ok r)
    | .error e => (t.1, [], .error e)
  | attempt, Nat.succ rem =>
    let t := generateOnce prefs mapping env (callAt attempt)
    match t.2 with
    | .ok r => (t.1, [], .ok r)
    | .error _ =>
      let t2 := runAttempts prefs mapping env callAt (attempt + 1) rem
      (t.1 ++ t2.1, waitExponential 1 2 10 attempt :: t2.2.1, t2.2.2)

/-- `LLMManager.generate_with_fallback` under its retry decorator:
attempt 1 plus up to 2 retries. -/
def generateWithFallback (prefs : List String) (mapping : String → List String)
    (env : ProviderEnv)
    (callAt : Nat → String × String → Except String LLMResponse) :
    List (String × String) × List Nat × Except String LLMResponse :=
  runAttempts prefs mapping env callAt 1 2

/-! ## Evaluator notification (`DeploymentService.notify_evaluation`) -/

/-- Outcome of one `client.post(evaluation_url, ...)` call. -/
inductive HttpOutcome where
  | response (status : Nat) (body : String)
  | transportError (msg : String)
deriving DecidableEq, Repr

/-- One bare `notify_evaluation` body: `200 → True`, any other status raises
`Non-200 response: {status}`, a transport error re-raises. -/
def notifyOnce (outcome : HttpOutcome) : Except String Bool :=
  match outcome with
  | .response status _ =>
    if status = 200 then Except.ok true
    else Except.error ("Non-200 response: " ++ toString status)
  | .transportError msg => Except.error msg

/-- The `@retry(stop=stop_after_attempt(5), wait=wait_exponential(multiplier=1,
min=1, max=8))` decorator around `notify_evaluation`.  `outcomes n` is the
HTTP outcome of attempt `n`.  Returns (the (url, payload) pairs POSTed,
sleeps performed, final outcome). -/
def notifyGo (outcomes : Nat → HttpOutcome) (url payload : String) :
    Nat → Nat → List (String × String) × List Nat × Except String Bool
  | attempt, 0 =>
    match notifyOnce (outcomes attempt) with
    | .ok b => ([(url, payload)], [], .ok b)
    | .error e => ([(url, payload)], [], .error e)
  | attempt, Nat.succ rem =>
    match notifyOnce (outcomes attempt) with
    | .ok b => ([(url, payload)], [], .ok b)
    | .error _ =>
      let t := notifyGo outcomes url payload (attempt + 1) rem
      ((url, payload) :: t.1, waitExponential 1 1 8 attempt :: t.2.1, t.2.2)

/-- `DeploymentService.notify_evaluation` under its retry decorator:
attempt 1 plus up to 4 retries. -/
def notifyEvaluation (outcomes : Nat → HttpOutcome) (url payload : String) :
    List (String × String) × List Nat × Except String Bool :=
  notifyGo outcomes url payload 1 4

/-! ## Code generator post-processing (`CodeGenerator`)

`_parse_code_response` is best-effort string parsing; its result (a possibly
empty path → content dict) is the `parsed` input of the functions below,
which model everything `generate_application` / `update_application` do
after the parse. -/

/-- `CodeGenerator._generate_default_html`. -/
def generateDefaultHtml (task : String) : String :=
  "<!DOCTYPE html>\n<html lang=\"en\">\n<head>\n    <meta charset=\"UTF-8\">\n    <meta name=\"viewport\" content=\"width=device-width, initial-scale=1.0\">\n    <title>" ++ task ++ "</title>\n    <link href=\"https://cdn.jsdelivr.net/npm/bootstrap@5.1.3/dist/css/bootstrap.min.css\" rel=\"stylesheet\">\n    <style>\n        body \x7b padding: 20px; \x7d\n    </style>\n</head>\n<body>\n    <div class=\"container\">\n        <h1>" ++ task ++ "</h1>\n        <div id=\"app\">\n            <!-- Application content will be rendered here -->\n        </div>\n    </div>\n    <script src=\"script.js\"></script>\n</body>\n</html>"

/-- `CodeGenerator._generate_readme`. -/
def generateReadme (task brief email : String) (round : Nat)
    (checks : List String) (files : FileSet) : String :=
  "# " ++ task ++
  "\n\n## Summary\nThis application was generated to fulfill the following requirements:\n" ++
  brief ++
  "\n\n## Setup\n1. Clone this repository\n2. Open `index.html` in a web browser\n3. The application is ready to use\n\n## Usage\nThe application provides the following functionality based on the requirements:\n" ++
  String.intercalate "\n" (checks.map (fun c => "- " ++ c)) ++
  "\n\n## Code Explanation\n### Files Included:\n" ++
  String.intercalate "\n" (files.map (fun f => "- `" ++ f.1 ++ "`")) ++
  "\n\n### Key Features:\n- Responsive design using Bootstrap\n- Error handling for robust operation\n- Clean, maintainable code structure\n\n## License\nThis project is licensed under the MIT License - see the LICENSE file for details.\n\n## Task Details\n- Task ID: " ++
  task ++ "\n- Round: " ++ toString round ++ "\n- Email: " ++ email ++ "\n"

/-- `CodeGenerator._generate_mit_license`. -/
def mitLicense : String :=
  "MIT License\n\nCopyright (c) 2024\n\nPermission is hereby granted, free of charge, to any person obtaining a copy\nof this software and associated documentation files (the \"Software\"), to deal\nin the Software without restriction, including without limitation the rights\nto use, copy, modify, merge, publish, distribute, sublicense, and/or sell\ncopies of the Software, and to permit persons to whom the Software is\nfurnished to do so, subject to the following conditions:\n\nThe above copyright notice and this permission notice shall be included in all\ncopies or substantial portions of the Software.\n\nTHE SOFTWARE IS PROVIDED \"AS IS\", WITHOUT WARRANTY OF ANY KIND, EXPRESS OR\nIMPLIED, INCLUDING BUT NOT LIMITED TO THE WARRANTIES OF MERCHANTABILITY,\nFITNESS FOR A PARTICULAR PURPOSE AND NONINFRINGEMENT. IN NO EVENT SHALL THE\nAUTHORS OR COPYRIGHT HOLDERS BE LIABLE FOR ANY CLAIM, DAMAGES OR OTHER\nLIABILITY, WHETHER IN AN ACTION OF CONTRACT, TORT OR OTHERWISE, ARISING FROM,\nOUT OF OR IN CONNECTION WITH THE SOFTWARE OR THE USE OR OTHER DEALINGS IN THE\nSOFTWARE."

/-- `CodeGenerator.generate_application` after parsing: ensure required
files exist, inserting defaults for any of `index.html`, `README.md`,
`LICENSE` absent (in that order; the README default sees the dict after the
`index.html` default was inserted). -/
def generateApplicationFiles (parsed : FileSet) (task brief email : String)
    (round : Nat) (checks : List String) : FileSet :=
  let f1 := if dictContains parsed "index.html" then parsed
            else dictInsert parsed "index.html" (generateDefaultHtml task)
  let f2 := if dictContains f1 "README.md" then f1
            else dictInsert f1 "README.md" (generateReadme task brief email round checks f1)
  if dictContains f2 "LICENSE" then f2
  else dictInsert f2 "LICENSE" mitLicense

/-- `CodeGenerator._update_readme`: append the round-update section, before
the `## License` section when one exists (`str.split` keeps only the first
two parts). -/
def updateReadme (round : Nat) (brief : String) (checks : List String)
    (current : String) : String :=
  let updateSection :=
    "\n\n## Round " ++ toString round ++ " Updates\n### New Requirements:\n" ++
    brief ++ "\n\n### New Checks:\n" ++
    String.intercalate "\n" (checks.map (fun c => "- " ++ c)) ++ "\n"
  match current.splitOn "## License" with
  | p0 :: p1 :: _ => p0 ++ updateSection ++ "\n## License" ++ p1
  | _ => current ++ updateSection

/-- One iteration of the `update_application` carry-over loop
(`if key not in files and key != 'README.md': files[key] = value`). -/
def mergeKeepExisting (fs : FileSet) (kv : String × String) : FileSet :=
  if dictContains fs kv.1 = false ∧ kv.1 ≠ "README.md" then
    dictInsert fs kv.1 kv.2
  else fs

/-- `CodeGenerator.update_application` after parsing: carry over every
previously-existing file that the new result lacks, except `README.md`;
then, if the new result has a `README.md`, rewrite it with the round-update
section.  No defaults are inserted on this path. -/
def updateApplicationFiles (parsed existing : FileSet) (round : Nat)
    (brief : String) (checks : List String) : FileSet :=
  let merged := existing.foldl mergeKeepExisting parsed
  match dictLookup merged "README.md" with
  | some cur => dictInsert merged "README.md" (updateReadme round brief checks cur)
  | none => merged

/-! ## Provider attachment shaping (`app/services/llm/providers.py`)

`enc` stands for `base64.b64encode(...).decode('ascii')` and `dec` for
`bytes.decode('utf-8', errors='replace')`; both are Python standard-library
codecs shared verbatim by every provider. -/

/-- Raw attachment bytes. -/
abbrev Bytes := List Nat

/-- Python `str.startswith`, modelled on the character sequence. -/
def strStartsWith (s pre : String) : Bool :=
  pre.data.isPrefixOf s.data

/-- A processed attachment record handed to a provider `generate` call. -/
structure Attachment where
  name : String
  mimeType : String
  content : Bytes
deriving DecidableEq, Repr

/-- One element of the multimodal user-message content array. -/
inductive MessagePart where
  | text (s : String)
  | imageUrl (url : String)
deriving DecidableEq, Repr

/-- The labelled text block appended to the prompt for a non-image
attachment (identical literal in all four providers). -/
def attachmentTextBlock (dec : Bytes → String) (a : Attachment) : String :=
  "\n\n--- File: " ++ a.name ++ " ---\n" ++ dec a.content ++
  "\n--- End of " ++ a.name ++ " ---"

/-- `OpenRouterProvider.generate` user-message content: start from the text
part holding the prompt; images become appended `image_url` parts carrying a
base64 data URI; other attachments are appended into the text part. -/
def openRouterUserContent (enc dec : Bytes → String) (prompt : String)
    (atts : List Attachment) : List MessagePart :=
  let r := atts.foldl
    (fun (acc : String × List MessagePart) a =>
      if strStartsWith a.mimeType "image/" then
        (acc.1, acc.2 ++
          [MessagePart.imageUrl ("data:" ++ a.mimeType ++ ";base64," ++ enc a.content)])
      else
        (acc.1 ++ attachmentTextBlock dec a, acc.2))
    (prompt, [])
  MessagePart.text r.1 :: r.2

/-- `OpenAIProvider.generate` user-message content (same shaping code,
duplicated in the source). -/
def openAIUserContent (enc dec : Bytes → String) (prompt : String)
    (atts : List Attachment) : List MessagePart :=
  let r := atts.foldl
    (fun (acc : String × List MessagePart) a =>
      if strStartsWith a.mimeType "image/" then
        (acc.1, acc.2 ++
          [MessagePart.imageUrl ("data:" ++ a.mimeType ++ ";base64," ++ enc a.content)])
      else
        (acc.1 ++ attachmentTextBlock dec a, acc.2))
    (prompt, [])
  MessagePart.text r.1 :: r.2

/-- `AnthropicProvider.generate` full prompt: only non-image attachments are
appended as text blocks; image attachments contribute nothing. -/
def anthropicFullPrompt (dec : Bytes → String) (prompt : String)
    (atts : List Attachment) : String :=
  atts.foldl
    (fun acc a =>
      if strStartsWith a.mimeType "image/" then acc
      else acc ++ attachmentTextBlock dec a)
    prompt

/-- `GeminiProvider.generate` full prompt (same shaping code, duplicated in
the source). -/
def geminiFullPrompt (dec : Bytes → String) (prompt : String)
    (atts : List Attachment) : String :=
  atts.foldl
    (fun acc a =>
      if strStartsWith a.mimeType "image/" then acc
      else acc ++ attachmentTextBlock dec a)
    prompt

/-! ## Request orchestration (`process_build_request` in `app/api/endpoints.py`) -/

/-- The validated inbound request (secret omitted — checked synchronously
before the pipeline starts). -/
structure BuildRequest where
  email : String
  task : String
  round : Nat
  nonce : String
  brief : String
  checks : List String
  evaluationUrl : String
deriving DecidableEq, Repr

/-- `repo_name = f"{task}-{email.split('@')[0]}".replace('.', '-').replace('_', '-')`. -/
def repoNameFor (task email : String) : String :=
  (((task ++ "-" ++ ((email.splitOn "@").headD "")).replace "." "-").replace "_" "-")

/-- External outcomes the pipeline run depends on: whether the repository
lookup found one, the GitHub API behaviour during the publish, the parsed
LLM generation result, and the repository read path used on rounds ≥ 2. -/
structure PipelineEnv where
  existingRepo : Option GitState
  gitEnv : GitEnv
  parsed : FileSet
  dec : String → Except String String
  rootFetchOk : Bool
  rootEntries : List RepoEntry

/-- The prior file set the update path conditions on
(`existing_files = github_service.get_files(repo)`). -/
def pipelineExistingFiles (env : PipelineEnv) : FileSet :=
  getFiles env.dec env.rootFetchOk env.rootEntries

/-- The file set `process_build_request` hands to `push_files`: the
generate branch when `round == 1 or repo is None`, the update branch
otherwise; then the round pseudo-key is injected
(`files['round'] = str(request.round)`). -/
def filesForPush (req : BuildRequest) (env : PipelineEnv) : FileSet :=
  let base :=
    if req.round = 1 ∨ env.existingRepo = none then
      generateApplicationFiles env.parsed req.task req.brief req.email req.round req.checks
    else
      updateApplicationFiles env.parsed (pipelineExistingFiles env) req.round
        req.brief req.checks
  dictInsert base "round" (toString req.round)

/-! ## Dictionary lemmas -/

theorem dictLookup_insert_self (d : FileSet) (k v : String) :
    dictLookup (dictInsert d k v) k = some v := by
  induction d with
  | nil => simp [dictInsert, dictLookup]
  | cons hd tl ih =>
    by_cases h : hd.1 = k
    · simp [dictInsert, dictLookup, h]
    · simp [dictInsert, dictLookup, h, ih]

theorem dictLookup_insert_ne (d : FileSet) (k v k' : String) (h : k ≠ k') :
    dictLookup (dictInsert d k v) k' = dictLookup d k' := by
  induction d with
  | nil => simp [dictInsert, dictLookup, h]
  | cons hd tl ih =>
    by_cases hk : hd.1 = k
    · simp [dictInsert, dictLookup, hk, h]
    · simp only [dictInsert, hk, if_false, dictLookup]
      by_cases hk' : hd.1 = k'
      · simp [hk']
      · simp [hk', ih]

theorem dictContains_insert_self (d : FileSet) (k v : String) :
    dictContains (dictInsert d k v) k = true := by
  simp [dictContains, dictLookup_insert_self]

theorem dictContains_insert_ne (d : FileSet) (k v k' : String) (h : k ≠ k') :
    dictContains (dictInsert d k v) k' = dictContains d k' := by
  simp [dictContains, dictLookup_insert_ne d k v k' h]

/-! ## Repository sync lemmas -/

theorem dictLookup_createGitTree_not_mem (elements : FileSet) (p : String) :
    ∀ base, p ∉ elements.map Prod.fst →
      dictLookup (createGitTree elements base) p = dictLookup base p := by
  induction elements with
  | nil => intro base _; rfl
  | cons hd tl ih =>
    intro base h
    simp only [List.map_cons, List.mem_cons, not_or] at h
    show dictLookup (createGitTree tl (dictInsert base hd.1 hd.2)) p = _
    rw [ih _ h.2, dictLookup_insert_ne base hd.1 hd.2 p (Ne.symm h.1)]

theorem round_not_mem_treeElements (files : FileSet) :
    "round" ∉ (treeElements files).map Prod.fst := by
  intro h
  rcases List.mem_map.mp h with ⟨a, ha, hfst⟩
  rcases List.mem_filter.mp ha with ⟨-, hne⟩
  simp only [ne_eq, decide_not, Bool.not_eq_true', decide_eq_false_iff_not] at hne
  exact hne hfst

theorem treeAt_append_lt (s : GitState) (c : Commit) (t : Nat)
    (h : t < s.commits.length) :
    treeAt { s with commits := s.commits ++ [c] } t = treeAt s t := by
  simp [treeAt, List.getElem?_append_left h]

theorem treeAt_append_len (s : GitState) (c : Commit) :
    treeAt { s with commits := s.commits ++ [c] } s.commits.length = c.tree := by
  simp [treeAt, List.getElem?_concat_length]

theorem observedTree_applySteps_main (s : GitState) (files : FileSet) (t : Nat) :
    observedTree (applySteps s (mainPublishSteps s files t)) =
      createGitTree (treeElements files) (treeAt s t) := by
  simp only [mainPublishSteps, applySteps, List.foldl_cons, List.foldl_nil, applyStep]
  simp [observedTree, treeAt, List.getElem?_concat_length]

/-- Claim C1: publishing a file set to a repository with an existing tip
commit builds a single new tree layered on the previous tip tree (entries
not in the set inherited unchanged), creates one commit whose single parent
is the previous tip, and moves the branch reference exactly once as the
final API step, so a reader of the default branch at any point during the
publish observes either the prior tree or the complete new tree, never a
tree containing only some of the new files. -/
theorem claim_C1_publish_atomic (s : GitState) (env : GitEnv) (files : FileSet)
    (t : Nat) (htip : s.branchTip = some t) (href : env.refLookupOk = true)
    (hwf : t < s.commits.length) :
    pushFiles s env files =
      Except.ok (s.commits.length, applySteps s (mainPublishSteps s files t)) ∧
    mainPublishSteps s files t =
      [PubStep.mkTree (createGitTree (treeElements files) (observedTree s)),
       PubStep.mkCommit ⟨[t], createGitTree (treeElements files) (observedTree s)⟩,
       PubStep.setRef s.commits.length] ∧
    (applySteps s (mainPublishSteps s files t)).commits[s.commits.length]? =
      some ⟨[t], createGitTree (treeElements files) (observedTree s)⟩ ∧
    (List.scanl applyStep s (mainPublishSteps s files t)).map observedTree =
      [observedTree s, observedTree s, observedTree s,
       createGitTree (treeElements files) (observedTree s)] ∧
    ∀ p, p ∉ (treeElements files).map Prod.fst →
      dictLookup (createGitTree (treeElements files) (observedTree s)) p =
        dictLookup (observedTree s) p := by
  have hobs : observedTree s = treeAt s t := by
    simp [observedTree, htip]
  refine ⟨?_, ?_, ?_, ?_, ?_⟩
  · simp [pushFiles, htip, href]
  · simp [mainPublishSteps, hobs]
  · rw [hobs]
    simp only [mainPublishSteps, applySteps, List.foldl_cons, List.foldl_nil, applyStep]
    simp [List.getElem?_concat_length]
  · simp only [mainPublishSteps, List.scanl, applyStep, List.map_cons, List.map_nil,
      List.cons.injEq, and_true]
    refine ⟨trivial, trivial, ?_, ?_⟩
    · rw [hobs]
      simp [observedTree, htip, treeAt, List.getElem?_append_left hwf]
    · rw [hobs]
      simp [observedTree, treeAt, List.getElem?_concat_length]
  · intro p hp
    rw [hobs]
    exact dictLookup_createGitTree_not_mem (treeElements files) p (treeAt s t) hp

/-- Claim C1 witness: the atomicity theorem applied to a concrete one-commit
repository and a one-file publish. -/
theorem claim_C1_witness :
    (List.scanl applyStep ⟨[⟨[], [("a", "1")]⟩], some 0⟩
        (mainPublishSteps ⟨[⟨[], [("a", "1")]⟩], some 0⟩ [("index.html", "x")] 0)).map
        observedTree =
      [observedTree ⟨[⟨[], [("a", "1")]⟩], some 0⟩,
       observedTree ⟨[⟨[], [("a", "1")]⟩], some 0⟩,
       observedTree ⟨[⟨[], [("a", "1")]⟩], some 0⟩,
       createGitTree (treeElements [("index.html", "x")])
         (observedTree ⟨[⟨[], [("a", "1")]⟩], some 0⟩)] :=
  (claim_C1_publish_atomic ⟨[⟨[], [("a", "1")]⟩], some 0⟩ ⟨true, true⟩
    [("index.html", "x")] 0 rfl rfl (by decide)).2.2.2.1

/-- Claim C5 counterexample: a publish against a non-empty repository whose
branch-ref lookup failed transiently, so the bootstrap path runs and the
placeholder creation fails (the repository is already non-empty).  Contrary
to the claim, `push_files` does not proceed by re-resolving tip and tree: it
re-raises and the publish fails. -/
theorem claim_C5_counterexample :
    pushFiles ⟨[⟨[], [("index.html", "old")]⟩], some 0⟩ ⟨false, false⟩
        [("index.html", "new")] =
      Except.error (GhError.apiError "Failed to initialize repository with create_file") :=
  rfl

/-- Claim C5 (amended): whenever the bootstrap path is taken (no resolvable
tip) and the placeholder creation fails — for any reason, including the
repository being already non-empty — `push_files` re-raises the failure and
the publish fails; the bootstrap step is not idempotent. -/
theorem claim_C5_bootstrap_failure_propagates (s : GitState) (env : GitEnv)
    (files : FileSet) (hcf : env.createFileOk = false)
    (h : s.branchTip = none ∨ env.refLookupOk = false) :
    pushFiles s env files =
      Except.error (GhError.apiError "Failed to initialize repository with create_file") := by
  rcases h with h | h
  · simp [pushFiles, h, hcf]
  · cases htip : s.branchTip <;> simp [pushFiles, htip, h, hcf]

/-- Claim C5 witness: the amended statement applied to an empty repository
whose placeholder creation fails. -/
theorem claim_C5_witness :
    pushFiles ⟨[], none⟩ ⟨true, false⟩ [("index.html", "x")] =
      Except.error (GhError.apiError "Failed to initialize repository with create_file") :=
  claim_C5_bootstrap_failure_propagates ⟨[], none⟩ ⟨true, false⟩
    [("index.html", "x")] rfl (Or.inl rfl)

/-- Claim C6: on every pipeline run the round number is injected under the
reserved `"round"` pseudo-key before publish and determines the commit
message; publish's tree elements never carry the pseudo-key, the tree a
publish layers on a `"round"`-free base is `"round"`-free, and a publish of
the pipeline's file set onto such a base yields a new branch tree with no
`"round"` path. -/
theorem claim_C6_round_metadata (req : BuildRequest) (env : PipelineEnv) :
    dictLookup (filesForPush req env) "round" = some (toString req.round) ∧
    commitMessage (filesForPush req env) =
      "Deploy application - Round " ++ toString req.round ∧
    (∀ p c, (p, c) ∈ treeElements (filesForPush req env) → p ≠ "round") ∧
    (∀ base, dictLookup base "round" = none →
      dictLookup (createGitTree (treeElements (filesForPush req env)) base) "round" =
        none) ∧
    (∀ s genv t, s.branchTip = some t → genv.refLookupOk = true →
      dictLookup (treeAt s t) "round" = none →
      ∃ st, pushFiles s genv (filesForPush req env) =
          Except.ok (s.commits.length, st) ∧
        dictLookup (observedTree st) "round" = none) := by
  have h1 : dictLookup (filesForPush req env) "round" = some (toString req.round) := by
    simp only [filesForPush]
    exact dictLookup_insert_self _ _ _
  refine ⟨h1, ?_, ?_, ?_, ?_⟩
  · simp [commitMessage, h1]
  · intro p c hpc
    have := List.mem_filter.mp hpc
    simpa using this.2
  · intro base hbase
    rw [dictLookup_createGitTree_not_mem _ _ base (round_not_mem_treeElements _)]
    exact hbase
  · intro s genv t htip href hbase
    refine ⟨applySteps s (mainPublishSteps s (filesForPush req env) t), ?_, ?_⟩
    · simp [pushFiles, htip, href]
    · rw [observedTree_applySteps_main,
        dictLookup_createGitTree_not_mem _ _ _ (round_not_mem_treeElements _)]
      exact hbase

/-- Claim C6 witness: the round-metadata theorem applied to a concrete
round-2 request, environment and repository. -/
theorem claim_C6_witness :
    ∃ st, pushFiles ⟨[⟨[], [("a", "1")]⟩], some 0⟩ ⟨true, true⟩
        (filesForPush ⟨"alice@example.com", "task1", 2, "n", "brief", [], "http://e"⟩
          ⟨none, ⟨true, true⟩, [], fun s => Except.ok s, true, []⟩) =
      Except.ok (1, st) ∧ dictLookup (observedTree st) "round" = none :=
  (claim_C6_round_metadata ⟨"alice@example.com", "task1", 2, "n", "brief", [], "http://e"⟩
    ⟨none, ⟨true, true⟩, [], fun s => Except.ok s, true, []⟩).2.2.2.2
    ⟨[⟨[], [("a", "1")]⟩], some 0⟩ ⟨true, true⟩ 0 rfl rfl (by decide)

/-! ## Fallback manager lemmas -/

theorem tryProviders_eq (env : ProviderEnv)
    (call : String × String → Except String LLMResponse) (m : String)
    (ps : List String) :
    tryProviders env call m ps =
      runCandidatesOpt call
        ((ps.filter (fun p => env.configured p && env.available p)).map
          (fun p => (m, p))) := by
  induction ps with
  | nil => rfl
  | cons p rest ih =>
    by_cases hc : env.configured p
    · by_cases ha : env.available p
      · cases hcall : call (m, p) with
        | ok r => simp [tryProviders, runCandidatesOpt, hc, ha, hcall]
        | error e => simp [tryProviders, runCandidatesOpt, hc, ha, hcall, ih]
      · simp only [Bool.not_eq_true] at ha
        simp [tryProviders, hc, ha, ih]
    · simp only [Bool.not_eq_true] at hc
      simp [tryProviders, hc, ih]

theorem runCandidatesOpt_cons_ok
    (call : String × String → Except String LLMResponse)
    (c : String × String) (cs : List (String × String)) (r : LLMResponse)
    (h : call c = Except.ok r) :
    runCandidatesOpt call (c :: cs) = ([c], some r) := by
  simp [runCandidatesOpt, h]

theorem runCandidatesOpt_cons_error
    (call : String × String → Except String LLMResponse)
    (c : String × String) (cs : List (String × String)) (e : String)
    (h : call c = Except.error e) :
    runCandidatesOpt call (c :: cs) =
      (c :: (runCandidatesOpt call cs).1, (runCandidatesOpt call cs).2) := by
  simp [runCandidatesOpt, h]

theorem runCandidatesOpt_append_of_some
    (call : String × String → Except String LLMResponse)
    (l1 l2 : List (String × String)) (r : LLMResponse)
    (h : (runCandidatesOpt call l1).2 = some r) :
    runCandidatesOpt call (l1 ++ l2) = runCandidatesOpt call l1 := by
  induction l1 with
  | nil => simp [runCandidatesOpt] at h
  | cons c cs ih =>
    cases hcall : call c with
    | ok r' =>
      rw [List.cons_append, runCandidatesOpt_cons_ok call c _ r' hcall,
        runCandidatesOpt_cons_ok call c cs r' hcall]
    | error e =>
      rw [runCandidatesOpt_cons_error call c cs e hcall] at h
      rw [List.cons_append, runCandidatesOpt_cons_error call c _ e hcall,
        runCandidatesOpt_cons_error call c cs e hcall, ih h]

theorem runCandidatesOpt_append_of_none
    (call : String × String → Except String LLMResponse)
    (l1 l2 : List (String × String))
    (h : (runCandidatesOpt call l1).2 = none) :
    runCandidatesOpt call (l1 ++ l2) =
      ((runCandidatesOpt call l1).1 ++ (runCandidatesOpt call l2).1,
       (runCandidatesOpt call l2).2) := by
  induction l1 with
  | nil => simp [runCandidatesOpt]
  | cons c cs ih =>
    cases hcall : call c with
    | ok r' =>
      rw [runCandidatesOpt_cons_ok call c cs r' hcall] at h
      simp at h
    | error e =>
      rw [runCandidatesOpt_cons_error call c cs e hcall] at h
      rw [List.cons_append, runCandidatesOpt_cons_error call c _ e hcall,
        runCandidatesOpt_cons_error call c cs e hcall, ih h]
      exact rfl

theorem availableCandidates_cons (m : String) (rest : List String)
    (mapping : String → List String) (env : ProviderEnv) :
    availableCandidates (m :: rest) mapping env =
      ((mapping m).filter (fun p => env.configured p && env.available p)).map
        (fun p => (m, p)) ++ availableCandidates rest mapping env := by
  simp [availableCandidates]

theorem tryModels_cons (env : ProviderEnv)
    (call : String × String → Except String LLMResponse)
    (mapping : String → List String) (m : String) (rest : List String) :
    tryModels env call mapping (m :: rest) =
      match (tryProviders env call m (mapping m)).2 with
      | some r => ((tryProviders env call m (mapping m)).1, some r)
      | none =>
        ((tryProviders env call m (mapping m)).1 ++ (tryModels env call mapping rest).1,
         (tryModels env call mapping rest).2) := by
  rfl

theorem tryModels_eq (env : ProviderEnv)
    (call : String × String → Except String LLMResponse)
    (mapping : String → List String) (ms : List String) :
    tryModels env call mapping ms =
      runCandidatesOpt call (availableCandidates ms mapping env) := by
  induction ms with
  | nil => rfl
  | cons m rest ih =>
    rw [tryModels_cons, tryProviders_eq env call m (mapping m),
      availableCandidates_cons]
    cases hr : (runCandidatesOpt call
        (((mapping m).filter (fun p => env.configured p && env.available p)).map
          (fun p => (m, p)))).2 with
    | some r =>
      simp only [hr]
      rw [runCandidatesOpt_append_of_some _ _ _ _ hr, ← hr]
    | none =>
      simp only [hr]
      rw [runCandidatesOpt_append_of_none _ _ _ hr, ih]

theorem runCandidatesOpt_first_success
    (call : String × String → Except String LLMResponse)
    (failing rest : List (String × String)) (c : String × String) (r : LLMResponse)
    (hfail : ∀ x ∈ failing, ∃ e, call x = Except.error e)
    (hsucc : call c = Except.ok r) :
    runCandidatesOpt call (failing ++ c :: rest) = (failing ++ [c], some r) := by
  induction failing with
  | nil => simp [runCandidatesOpt, hsucc]
  | cons f fs ih =>
    obtain ⟨e, he⟩ := hfail f (List.mem_cons_self f fs)
    rw [List.cons_append, runCandidatesOpt_cons_error call f _ e he,
      ih (fun x hx => hfail x (List.mem_cons_of_mem f hx))]
    exact rfl

theorem runCandidatesOpt_all_fail
    (call : String × String → Except String LLMResponse)
    (l : List (String × String))
    (h : ∀ x ∈ l, ∃ e, call x = Except.error e) :
    runCandidatesOpt call l = (l, none) := by
  induction l with
  | nil => rfl
  | cons c cs ih =>
    obtain ⟨e, he⟩ := h c (List.mem_cons_self c cs)
    simp only [runCandidatesOpt, he]
    rw [ih (fun x hx => h x (List.mem_cons_of_mem c hx))]

theorem generateOnce_all_fail (prefs : List String)
    (mapping : String → List String) (env : ProviderEnv)
    (call : String × String → Except String LLMResponse)
    (h : ∀ x ∈ availableCandidates prefs mapping env, ∃ e, call x = Except.error e) :
    generateOnce prefs mapping env call =
      (availableCandidates prefs mapping env, Except.error allProvidersFailedMsg) := by
  simp only [generateOnce, tryModels_eq, runCandidatesOpt_all_fail call _ h]

theorem generateOnce_error_msg (prefs : List String)
    (mapping : String → List String) (env : ProviderEnv)
    (call : String × String → Except String LLMResponse) (e : String)
    (h : (generateOnce prefs mapping env call).2 = Except.error e) :
    e = allProvidersFailedMsg := by
  simp only [generateOnce] at h
  cases hx : (tryModels env call mapping prefs).2 with
  | none => rw [hx] at h; simp at h; exact h.symm
  | some r => rw [hx] at h; simp at h

theorem runAttempts_error_msg (prefs : List String)
    (mapping : String → List String) (env : ProviderEnv)
    (callAt : Nat → String × String → Except String LLMResponse) :
    ∀ rem attempt e,
      (runAttempts prefs mapping env callAt attempt rem).2.2 = Except.error e →
      e = allProvidersFailedMsg := by
  intro rem
  induction rem with
  | zero =>
    intro attempt e h
    simp only [runAttempts] at h
    cases hg : (generateOnce prefs mapping env (callAt attempt)).2 with
    | ok r => rw [hg] at h; simp at h
    | error e' =>
      rw [hg] at h
      simp at h
      subst h
      exact generateOnce_error_msg _ _ _ _ _ hg
  | succ r ih =>
    intro attempt e h
    simp only [runAttempts] at h
    cases hg : (generateOnce prefs mapping env (callAt attempt)).2 with
    | ok res => rw [hg] at h; simp at h
    | error e' =>
      rw [hg] at h
      simp at h
      exact ih (attempt + 1) e h

/-- Claim C2: for every model-preference list and provider-capability
mapping, the cascade walks candidates in declared order (models by
preference, providers by declaration, unconfigured/unavailable providers
skipped) and returns the result of the first succeeding candidate, having
called exactly the failing earlier candidates and the succeeding one —
later candidates are never consulted, and earlier failures never abort the
cascade. -/
theorem claim_C2_first_success (prefs : List String)
    (mapping : String → List String) (env : ProviderEnv)
    (call : String × String → Except String LLMResponse)
    (failing rest : List (String × String)) (c : String × String) (r : LLMResponse)
    (hcs : availableCandidates prefs mapping env = failing ++ c :: rest)
    (hfail : ∀ x ∈ failing, ∃ e, call x = Except.error e)
    (hsucc : call c = Except.ok r) :
    generateOnce prefs mapping env call = (failing ++ [c], Except.ok r) := by
  simp only [generateOnce, tryModels_eq, hcs,
    runCandidatesOpt_first_success call failing rest c r hfail hsucc]

/-- Claim C2 witness: concrete cascade where the first provider of `gpt-5`
fails and the second succeeds. -/
theorem claim_C2_witness :
    generateOnce ["gpt-5"] modelMapping ⟨fun _ => true, fun _ => true⟩
        (fun c => if c.2 = "openai" then Except.ok ⟨"content", "gpt-5", "openai"⟩
                  else Except.error "boom") =
      ([("gpt-5", "openrouter"), ("gpt-5", "openai")],
       Except.ok ⟨"content", "gpt-5", "openai"⟩) :=
  claim_C2_first_success ["gpt-5"] modelMapping ⟨fun _ => true, fun _ => true⟩
    (fun c => if c.2 = "openai" then Except.ok ⟨"content", "gpt-5", "openai"⟩
              else Except.error "boom")
    [("gpt-5", "openrouter")] [] ("gpt-5", "openai") ⟨"content", "gpt-5", "openai"⟩
    (by rfl)
    (by intro x hx; rw [List.mem_singleton] at hx; subst hx; exact ⟨"boom", rfl⟩)
    (by rfl)

/-- Claim C3: when every available candidate fails on every attempt, the
whole cascade is retried as a unit: exactly 3 cascade attempts run, the
total number of generation calls is 3 × the number of available candidates,
the sleeps between attempts follow exponential backoff with first wait 2s
and every wait within [2s, 10s], and the terminal outcome is the
"all providers exhausted" error — which is moreover the only error the
component can ever surface, for any call oracle. -/
theorem claim_C3_cascade_retry (prefs : List String)
    (mapping : String → List String) (env : ProviderEnv)
    (callAt : Nat → String × String → Except String LLMResponse)
    (hfail : ∀ n x, x ∈ availableCandidates prefs mapping env →
      ∃ e, callAt n x = Except.error e) :
    generateWithFallback prefs mapping env callAt =
      (availableCandidates prefs mapping env ++
        (availableCandidates prefs mapping env ++ availableCandidates prefs mapping env),
       [waitExponential 1 2 10 1, waitExponential 1 2 10 2],
       Except.error allProvidersFailedMsg) ∧
    (generateWithFallback prefs mapping env callAt).1.length =
      3 * (availableCandidates prefs mapping env).length ∧
    waitExponential 1 2 10 1 = 2 ∧
    waitExponential 1 2 10 2 = 4 ∧
    (∀ n, 2 ≤ waitExponential 1 2 10 n ∧ waitExponential 1 2 10 n ≤ 10) ∧
    (∀ callAt' e,
      (generateWithFallback prefs mapping env callAt').2.2 = Except.error e →
      e = allProvidersFailedMsg) := by
  have h1 := generateOnce_all_fail prefs mapping env (callAt 1) (fun x hx => hfail 1 x hx)
  have h2 := generateOnce_all_fail prefs mapping env (callAt 2) (fun x hx => hfail 2 x hx)
  have h3 := generateOnce_all_fail prefs mapping env (callAt 3) (fun x hx => hfail 3 x hx)
  have hmain : generateWithFallback prefs mapping env callAt =
      (availableCandidates prefs mapping env ++
        (availableCandidates prefs mapping env ++ availableCandidates prefs mapping env),
       [waitExponential 1 2 10 1, waitExponential 1 2 10 2],
       Except.error allProvidersFailedMsg) := by
    simp only [generateWithFallback, runAttempts, h1, h2, h3]
  refine ⟨hmain, ?_, by decide, by decide, ?_, ?_⟩
  · rw [hmain]
    simp [Nat.mul_comm]
    ring
  · intro n
    simp only [waitExponential, Nat.zero_max, one_mul]
    exact ⟨Nat.le_max_left 2 _, Nat.max_le.mpr ⟨by norm_num, Nat.min_le_right _ _⟩⟩
  · intro callAt' e h
    exact runAttempts_error_msg prefs mapping env callAt' 2 1 e h

/-- Claim C3 witness: one model served by one provider, every call failing. -/
theorem claim_C3_witness :
    (generateWithFallback ["modelX"] (fun _ => ["p1"])
        ⟨fun _ => true, fun _ => true⟩ (fun _ _ => Except.error "boom")).1.length =
      3 * (availableCandidates ["modelX"] (fun _ => ["p1"])
        ⟨fun _ => true, fun _ => true⟩).length :=
  (claim_C3_cascade_retry ["modelX"] (fun _ => ["p1"]) ⟨fun _ => true, fun _ => true⟩
    (fun _ _ => Except.error "boom") (fun _ _ _ => ⟨"boom", rfl⟩)).2.1

/-! ## Evaluator notification -/

/-- Claim C4 counterexample: an evaluator that answers `201 Created` — a
2xx-class success status — is treated as a retryable failure: all 5 attempts
POST and the call ends in the `Non-200 response` error, contradicting the
claim that any 2xx-class status is a successful confirmation. -/
theorem claim_C4_counterexample :
    notifyEvaluation (fun _ => HttpOutcome.response 201 "Created") "http://eval" "payload" =
      ([("http://eval", "payload"), ("http://eval", "payload"), ("http://eval", "payload"),
        ("http://eval", "payload"), ("http://eval", "payload")],
       [2, 4, 8, 8],
       Except.error "Non-200 response: 201") := by
  rfl

/-- Claim C4 (amended): `notify_evaluation` POSTs the payload to the
evaluator URL and treats exactly HTTP 200 as successful confirmation; any
other status — including other 2xx-class statuses — and any transport error
is a retryable failure; up to 5 attempts are made with exponential backoff
clamped to [1s, 8s], resending the identical payload each time, and when
every attempt fails the final error propagates to the caller rather than
being dropped. -/
theorem claim_C4_notify_retry (outcomes : Nat → HttpOutcome)
    (url payload body msg : String) (status : Nat) (errOf : Nat → String)
    (hfail : ∀ n, notifyOnce (outcomes n) = Except.error (errOf n)) :
    notifyOnce (HttpOutcome.response 200 body) = Except.ok true ∧
    (status ≠ 200 → notifyOnce (HttpOutcome.response status body) =
      Except.error ("Non-200 response: " ++ toString status)) ∧
    notifyOnce (HttpOutcome.transportError msg) = Except.error msg ∧
    notifyEvaluation outcomes url payload =
      (List.replicate 5 (url, payload),
       [waitExponential 1 1 8 1, waitExponential 1 1 8 2, waitExponential 1 1 8 3,
        waitExponential 1 1 8 4],
       Except.error (errOf 5)) ∧
    (∀ n, 1 ≤ waitExponential 1 1 8 n ∧ waitExponential 1 1 8 n ≤ 8) := by
  refine ⟨by simp [notifyOnce], ?_, rfl, ?_, ?_⟩
  · intro h
    simp [notifyOnce, h]
  · simp only [notifyEvaluation, notifyGo, hfail 1, hfail 2, hfail 3, hfail 4, hfail 5,
      List.replicate]
  · intro n
    simp only [waitExponential, Nat.zero_max, one_mul]
    exact ⟨Nat.le_max_left 1 _, Nat.max_le.mpr ⟨by norm_num, Nat.min_le_right _ _⟩⟩

/-- Claim C4 witness: a permanently unreachable evaluator (transport error
on every attempt). -/
theorem claim_C4_witness :
    notifyEvaluation (fun _ => HttpOutcome.transportError "connection reset")
        "http://eval" "body" =
      (List.replicate 5 ("http://eval", "body"),
       [waitExponential 1 1 8 1, waitExponential 1 1 8 2, waitExponential 1 1 8 3,
        waitExponential 1 1 8 4],
       Except.error "connection reset") :=
  (claim_C4_notify_retry (fun _ => HttpOutcome.transportError "connection reset")
    "http://eval" "body" "" "" 201 (fun _ => "connection reset")
    (fun _ => rfl)).2.2.2.1

/-! ## Code generator post-processing -/

theorem contains_after_default (d : FileSet) (k k' v : String)
    (h : dictContains d k = true) :
    dictContains (if dictContains d k' then d else dictInsert d k' v) k = true := by
  by_cases hc : dictContains d k' = true
  · simp [hc, h]
  · simp only [Bool.not_eq_true] at hc
    by_cases hk : k' = k
    · subst hk; rw [hc] at h; exact absurd h (by simp)
    · simp [hc, dictContains_insert_ne d k' v k hk, h]

theorem contains_ensure_default (d : FileSet) (k v : String) :
    dictContains (if dictContains d k then d else dictInsert d k v) k = true := by
  by_cases hc : dictContains d k = true
  · simp [hc]
  · simp only [Bool.not_eq_true] at hc
    simp [hc, dictContains_insert_self]

/-- Claim C7 counterexample: an update-path run whose parse produced nothing
and whose prior file set is empty yields a published file set with no entry
page, no license and no readme — the update path supplies no defaults,
contradicting the claim that both paths do. -/
theorem claim_C7_counterexample :
    dictLookup (updateApplicationFiles [] [] 2 "add feature" []) "index.html" = none ∧
    dictLookup (updateApplicationFiles [] [] 2 "add feature" []) "LICENSE" = none ∧
    dictLookup (updateApplicationFiles [] [] 2 "add feature" []) "README.md" = none :=
  ⟨rfl, rfl, rfl⟩

/-- Claim C7 (amended): on the fresh-generation path the returned file set
always contains `index.html`, `README.md` and `LICENSE`, defaults supplied
for any absent after parsing; on the update path no defaults are supplied —
with no prior files the result is exactly the parsed set (plus the README
rewrite when the parse produced one), so any required file may be absent. -/
theorem claim_C7_required_files (parsed : FileSet) (task brief email : String)
    (round : Nat) (checks : List String) :
    dictContains (generateApplicationFiles parsed task brief email round checks)
      "index.html" = true ∧
    dictContains (generateApplicationFiles parsed task brief email round checks)
      "README.md" = true ∧
    dictContains (generateApplicationFiles parsed task brief email round checks)
      "LICENSE" = true ∧
    updateApplicationFiles parsed [] round brief checks =
      (match dictLookup parsed "README.md" with
       | some cur => dictInsert parsed "README.md" (updateReadme round brief checks cur)
       | none => parsed) := by
  simp only [generateApplicationFiles]
  set f1 := if dictContains parsed "index.html" then parsed
            else dictInsert parsed "index.html" (generateDefaultHtml task) with hf1
  set f2 := if dictContains f1 "README.md" then f1
            else dictInsert f1 "README.md" (generateReadme task brief email round checks f1)
    with hf2
  have h1 : dictContains f1 "index.html" = true := contains_ensure_default parsed _ _
  have h2r : dictContains f2 "README.md" = true := contains_ensure_default f1 _ _
  have h2i : dictContains f2 "index.html" = true := contains_after_default f1 _ _ _ h1
  refine ⟨contains_after_default f2 _ _ _ h2i,
    contains_after_default f2 _ _ _ h2r,
    contains_ensure_default f2 _ _, rfl⟩

/-- A key already bound in the accumulator keeps its value through the
`update_application` carry-over loop. -/
theorem dictLookup_foldl_merge (l : FileSet) :
    ∀ fs k v, dictLookup fs k = some v →
      dictLookup (l.foldl mergeKeepExisting fs) k = some v := by
  induction l with
  | nil => intro fs k v h; exact h
  | cons kv rest ih =>
    intro fs k v h
    simp only [List.foldl_cons]
    by_cases hcond : dictContains fs kv.1 = false ∧ kv.1 ≠ "README.md"
    · have hk : kv.1 ≠ k := by
        intro he
        rw [he] at hcond
        rw [dictContains, h] at hcond
        simp at hcond
      apply ih
      rw [mergeKeepExisting, if_pos hcond, dictLookup_insert_ne fs kv.1 kv.2 k hk]
      exact h
    · apply ih
      rw [mergeKeepExisting, if_neg hcond]
      exact h

/-- The carry-over loop installs the first-occurrence value of every
previously-existing key the parse result lacks (other than `README.md`). -/
theorem dictLookup_merge_of_existing (existing : FileSet) :
    ∀ parsed k v, dictLookup existing k = some v →
      dictContains parsed k = false → k ≠ "README.md" →
      dictLookup (existing.foldl mergeKeepExisting parsed) k = some v := by
  induction existing with
  | nil => intro parsed k v h; exact absurd h (by simp [dictLookup])
  | cons kv rest ih =>
    intro parsed k v h hnew hk
    simp only [List.foldl_cons]
    by_cases hke : kv.1 = k
    · have hv : kv.2 = v := by
        rw [dictLookup, if_pos hke] at h
        exact Option.some.inj h
      have hcond : dictContains parsed kv.1 = false ∧ kv.1 ≠ "README.md" := by
        rw [hke]; exact ⟨hnew, hk⟩
      apply dictLookup_foldl_merge
      rw [mergeKeepExisting, if_pos hcond, hke, hv]
      exact dictLookup_insert_self parsed k v
    · have h' : dictLookup rest k = some v := by
        rw [dictLookup, if_neg hke] at h
        exact h
      apply ih _ k v h' _ hk
      by_cases hcond : dictContains parsed kv.1 = false ∧ kv.1 ≠ "README.md"
      · rw [mergeKeepExisting, if_pos hcond, dictContains_insert_ne parsed kv.1 kv.2 k hke]
        exact hnew
      · rw [mergeKeepExisting, if_neg hcond]
        exact hnew

/-- Claim C8: on the update path, every previously-existing file that the
new generation result does not regenerate and that is not named `README.md`
is preserved unchanged in the published file set. -/
theorem claim_C8_update_preserves (parsed existing : FileSet) (round : Nat)
    (brief : String) (checks : List String) (k v : String)
    (hex : dictLookup existing k = some v)
    (hnew : dictContains parsed k = false)
    (hk : k ≠ "README.md") :
    dictLookup (updateApplicationFiles parsed existing round brief checks) k = some v := by
  have hmerged := dictLookup_merge_of_existing existing parsed k v hex hnew hk
  simp only [updateApplicationFiles]
  cases hrm : dictLookup (existing.foldl mergeKeepExisting parsed) "README.md" with
  | none => exact hmerged
  | some cur =>
    rw [dictLookup_insert_ne _ _ _ _ (Ne.symm hk)]
    exact hmerged

/-- Claim C8 witness: a round-2 update that regenerates only `index.html`
preserves the untouched `app.js` from the prior tree. -/
theorem claim_C8_witness :
    dictLookup (updateApplicationFiles [("index.html", "new")]
        [("app.js", "old"), ("README.md", "r")] 2 "brief" []) "app.js" = some "old" :=
  claim_C8_update_preserves [("index.html", "new")]
    [("app.js", "old"), ("README.md", "r")] 2 "brief" [] "app.js" "old"
    rfl rfl (by decide)

/-! ## Provider attachment shaping -/

theorem openRouter_fold_split (enc dec : Bytes → String) :
    ∀ (atts : List Attachment) (p : String) (parts : List MessagePart),
      atts.foldl
        (fun (acc : String × List MessagePart) a =>
          if strStartsWith a.mimeType "image/" then
            (acc.1, acc.2 ++
              [MessagePart.imageUrl ("data:" ++ a.mimeType ++ ";base64," ++ enc a.content)])
          else
            (acc.1 ++ attachmentTextBlock dec a, acc.2))
        (p, parts) =
      (anthropicFullPrompt dec p atts,
       parts ++ (atts.filter (fun a => strStartsWith a.mimeType "image/")).map
         (fun a => MessagePart.imageUrl ("data:" ++ a.mimeType ++ ";base64," ++ enc a.content))) := by
  intro atts
  induction atts with
  | nil => intro p parts; simp [anthropicFullPrompt]
  | cons a rest ih =>
    intro p parts
    simp only [List.foldl_cons]
    by_cases himg : strStartsWith a.mimeType "image/" = true
    · rw [if_pos himg, ih]
      refine Prod.ext ?_ ?_
      · simp [anthropicFullPrompt, List.foldl_cons, himg]
      · simp [List.filter_cons, himg, List.append_assoc]
    · rw [if_neg himg, ih]
      refine Prod.ext ?_ ?_
      · simp only [Bool.not_eq_true] at himg
        simp [anthropicFullPrompt, List.foldl_cons, himg]
      · simp only [Bool.not_eq_true] at himg
        simp [List.filter_cons, himg]

theorem anthropic_drops_images (dec : Bytes → String) :
    ∀ (atts : List Attachment) (p : String),
      anthropicFullPrompt dec p atts =
        anthropicFullPrompt dec p
          (atts.filter (fun a => !(strStartsWith a.mimeType "image/"))) := by
  intro atts
  induction atts with
  | nil => intro p; rfl
  | cons a rest ih =>
    intro p
    by_cases himg : strStartsWith a.mimeType "image/" = true
    · simp [anthropicFullPrompt, List.foldl_cons, List.filter_cons, himg, ← ih]
      simp [anthropicFullPrompt] at ih
      exact ih p
    · simp only [Bool.not_eq_true] at himg
      simp only [anthropicFullPrompt, List.foldl_cons, List.filter_cons, himg,
        Bool.not_false, if_pos]
      have := ih (p ++ attachmentTextBlock dec a)
      simp only [anthropicFullPrompt] at this
      simpa [himg] using this

/-- Claim C9 counterexample: an image attachment is inlined as a base64 data
URI by the OpenRouter provider but contributes nothing at all to the
Anthropic provider's request — the prompt is sent untouched — so the
providers do not shape attachments identically. -/
theorem claim_C9_counterexample :
    anthropicFullPrompt (fun _ => "") "p" [⟨"a.png", "image/png", [1, 2, 3]⟩] = "p" ∧
    openRouterUserContent (fun _ => "AQID") (fun _ => "") "p"
        [⟨"a.png", "image/png", [1, 2, 3]⟩] =
      [MessagePart.text "p", MessagePart.imageUrl "data:image/png;base64,AQID"] := by
  constructor <;> rfl

/-- Claim C9 (amended): OpenRouter and OpenAI shape attachments identically —
images become appended base64 data-URI parts, non-image attachments become
labelled text blocks inside the prompt text; Anthropic and Gemini append
the same labelled text blocks for non-image attachments but silently drop
image attachments, so the prompt text is identical across all four
providers while only OpenRouter/OpenAI carry the image parts. -/
theorem claim_C9_attachment_shaping (enc dec : Bytes → String) (prompt : String)
    (atts : List Attachment) :
    openRouterUserContent enc dec prompt atts = openAIUserContent enc dec prompt atts ∧
    anthropicFullPrompt dec prompt atts = geminiFullPrompt dec prompt atts ∧
    openRouterUserContent enc dec prompt atts =
      MessagePart.text (anthropicFullPrompt dec prompt atts) ::
        (atts.filter (fun a => strStartsWith a.mimeType "image/")).map
          (fun a => MessagePart.imageUrl ("data:" ++ a.mimeType ++ ";base64," ++ enc a.content)) ∧
    anthropicFullPrompt dec prompt atts =
      anthropicFullPrompt dec prompt
        (atts.filter (fun a => !(strStartsWith a.mimeType "image/"))) := by
  refine ⟨rfl, rfl, ?_, anthropic_drops_images dec atts prompt⟩
  simp only [openRouterUserContent, openRouter_fold_split enc dec atts prompt []]
  simp

/-! ## Repository read path (`get_files`) -/

/-- Claim C10: `get_files` never raises — a failing directory listing or a
failing content decode abandons the walk and returns the mapping collected
so far (possibly empty, as when even the root listing fails), and the
round ≥ 2 pipeline path hands exactly that mapping to the update branch and
proceeds to publish with it. -/
theorem claim_C10_get_files_best_effort (dec : String → Except String String)
    (p raw : String) (cs rest : List RepoEntry) (acc : FileSet) (e : String)
    (entries : List RepoEntry) (req : BuildRequest) (env : PipelineEnv) (s : GitState)
    (hdec : dec raw = Except.error e)
    (hround : req.round ≠ 1) (hrepo : env.existingRepo = some s) :
    getFilesGo dec (RepoEntry.dir p false cs :: rest) acc = acc ∧
    getFilesGo dec (RepoEntry.file p "base64" raw :: rest) acc = acc ∧
    getFiles dec false entries = [] ∧
    filesForPush req env =
      dictInsert (updateApplicationFiles env.parsed
          (getFiles env.dec env.rootFetchOk env.rootEntries) req.round req.brief req.checks)
        "round" (toString req.round) := by
  refine ⟨by simp [getFilesGo], by simp [getFilesGo, hdec], rfl, ?_⟩
  simp only [filesForPush, pipelineExistingFiles]
  rw [if_neg]
  simp [hround, hrepo]

/-- Claim C10 witness: a walk that collected one file and then hits a decode
failure returns just that file; assembled into a concrete round-2 pipeline
environment. -/
theorem claim_C10_witness :
    getFilesGo (fun _ => Except.error "Invalid base64-encoded string")
      [RepoEntry.file "data.bin" "base64" "zz", RepoEntry.file "index.html" "plain" "x"]
      [("style.css", "body")] = [("style.css", "body")] :=
  (claim_C10_get_files_best_effort (fun _ => Except.error "Invalid base64-encoded string")
    "data.bin" "zz" [] [RepoEntry.file "index.html" "plain" "x"] [("style.css", "body")]
    "Invalid base64-encoded string" [] ⟨"a@b.c", "t", 2, "n", "b", [], "u"⟩
    ⟨some ⟨[], none⟩, ⟨true, true⟩, [], fun s => Except.ok s, true, []⟩ ⟨[], none⟩
    rfl (by decide) rfl).2.1

end AIDeployer
